import Mathlib

/-!
# Verification of the DesInt design-signal classification engine

Shallow embedding of the pure classification logic of
`src/server/scraper.js` (the `classifyColors` function, the color
primitives defined inside `extractColors`/`classifyColors`, and the
candidate-ranking tail of `extractLogo`).

Modelling conventions:
* A normalized lowercase `#rrggbb` hex string is represented by its three
  parsed channel values (`Hex`).  The JavaScript code always compares and
  stores colors after `toLowerCase()` normalization, so distinct `Hex`
  values model distinct normalized color strings.
* JavaScript numbers are modelled by `ℚ` (all arithmetic in the engine is
  exact decimal/ratio arithmetic on small quantities).
* JavaScript `Map` and plain-object accumulators are modelled by
  insertion-ordered association lists, matching the iteration order the
  code relies on.
* `Array.prototype.sort` with a score comparator is a stable sort; it is
  modelled by the stable insertion sort `sortDesc`.
* `undefined`/`null` results are modelled with `Option`.
-/

/-- A parsed `#rrggbb` color: the three channel values `r`, `g`, `b`
(each `0..255` for colors produced by the scraper). -/
structure Hex where
  r : Nat
  g : Nat
  b : Nat
deriving DecidableEq

/-- The score categories used by `classifyColors` (`scraper.js` lines
356-414): the string keys of `entry.categories`. -/
inductive Category
  | button
  | link
  | background
  | border
  | svg
  | accent
deriving DecidableEq

/-- A button candidate (`colors.buttons` entries, `scraper.js` 158-163).
The `text` field of the source object is never read by `classifyColors`
and is omitted. -/
structure ButtonCand where
  color : Hex
  area : ℚ
  isVisible : Bool

/-- A background candidate (`colors.backgrounds` entries, 187-191). -/
structure BgCand where
  color : Hex
  area : ℚ
  isHero : Bool

/-- An SVG color candidate (`colors.svgColors` entries, 234 etc.).
`area` is carried by the source objects but never read when scoring. -/
structure SvgCand where
  color : Hex
  inHeader : Bool
  area : ℚ

/-- An accent-element candidate (`colors.accentElements` entries, 292). -/
structure AccentCand where
  color : Hex
  area : ℚ

/-- The candidate lists handed to `classifyColors` (the `colors` object
built by `extractColors`, lines 97-106; the `all` map is never used). -/
structure ColorData where
  buttons : List ButtonCand
  links : List Hex
  backgrounds : List BgCand
  text : List Hex
  borders : List Hex
  svgColors : List SvgCand
  accentElements : List AccentCand

/-- Saturation `(max(r,g,b) - min(r,g,b)) / max(r,g,b)`, and `0` when the maximum is
`0`.  This exact expression is computed inline by `isNeutral` (121-126),
`getColorVibrancy` (314-319), `isNeutralOrDark` (329-334) and
`isValidBrandColor` (428-430) in `scraper.js`. -/
def satQ (c : Hex) : ℚ :=
  let mx := Nat.max c.r (Nat.max c.g c.b)
  let mn := Nat.min c.r (Nat.min c.g c.b)
  if mx = 0 then 0 else ((mx : ℚ) - (mn : ℚ)) / (mx : ℚ)

/-- Luminance `(0.299*r + 0.587*g + 0.114*b) / 255`, channels scaled to `[0,1]`:
the luminance expression computed inline by `getColorVibrancy` (320),
`isNeutralOrDark` (335) and `isValidBrandColor` (424) in `scraper.js`. -/
def lumQ (c : Hex) : ℚ :=
  (0.299 * (c.r : ℚ) + 0.587 * (c.g : ℚ) + 0.114 * (c.b : ℚ)) / 255

/-- The `isNeutral` helper of `extractColors` (`scraper.js` 118-127): saturation
strictly below `0.15`.  (The `!hex` null guard of the source cannot fire
here: a `Hex` always denotes a parsed color string.) -/
def isNeutral (c : Hex) : Prop :=
  satQ c < 0.15

instance (c : Hex) : Decidable (isNeutral c) := by
  unfold isNeutral; infer_instance

/-- The `getColorVibrancy` helper (`scraper.js` 312-324): saturation, with a `0.3`
penalty factor when luminance is below `0.15` or above `0.85`. -/
def getColorVibrancy (c : Hex) : ℚ :=
  let luminancePenalty : ℚ := if lumQ c < 0.15 ∨ lumQ c > 0.85 then 0.3 else 1
  satQ c * luminancePenalty

/-- The `isNeutralOrDark` helper (`scraper.js` 327-338): low saturation or very dark. -/
def isNeutralOrDark (c : Hex) : Prop :=
  satQ c < 0.25 ∨ lumQ c < 0.15

instance (c : Hex) : Decidable (isNeutralOrDark c) := by
  unfold isNeutralOrDark; infer_instance

/-- The `isValidBrandColor` helper (`scraper.js` 417-433). -/
def isValidBrandColor (c : Hex) : Prop :=
  if lumQ c > 0.95 ∨ lumQ c < 0.05 then False
  else satQ c > 0.1 ∨ (lumQ c > 0.1 ∧ lumQ c < 0.9)

instance (c : Hex) : Decidable (isValidBrandColor c) := by
  unfold isValidBrandColor; infer_instance

/-- The behaviour of `Array.prototype.find` with a decidable predicate: the first element
satisfying `p`, or `none`. -/
def findP (p : α → Prop) [DecidablePred p] : List α → Option α
  | [] => none
  | x :: xs => if p x then some x else findP p xs

/-- The behaviour of `Array.prototype.filter` with a decidable predicate. -/
def filterP (p : α → Prop) [DecidablePred p] : List α → List α
  | [] => []
  | x :: xs => if p x then x :: filterP p xs else filterP p xs

/-- Insert `x` into a descending-sorted list, before the first element
whose key does not exceed the key of `x` (so that, among equal keys,
earlier-observed elements stay first). -/
def insertDesc (key : α → ℚ) (x : α) : List α → List α
  | [] => [x]
  | y :: ys => if key y ≤ key x then x :: y :: ys else y :: insertDesc key x ys

/-- Stable descending sort by a rational key: the behaviour of the stable
`Array.prototype.sort` with comparator `(a, b) => key(b) - key(a)`. -/
def sortDesc (key : α → ℚ) : List α → List α
  | [] => []
  | x :: xs => insertDesc key x (sortDesc key xs)

/-- Helper for `dedupFirst`: drop elements already seen. -/
def dedupSeen [DecidableEq α] (seen : List α) : List α → List α
  | [] => []
  | x :: xs => if x ∈ seen then dedupSeen seen xs else x :: dedupSeen (seen ++ [x]) xs

/-- The behaviour of `[...new Set(list)]`: keep the first occurrence of each element, in
first-observed order. -/
def dedupFirst [DecidableEq α] (l : List α) : List α :=
  dedupSeen [] l

/-- One step of the `linkCounts[color] = (linkCounts[color] || 0) + 1`
accumulation (`scraper.js` 368-371, 384-387): bump the count of `c`,
appending a fresh key at the end on first sight. -/
def bumpCount (counts : List (Hex × ℚ)) (c : Hex) : List (Hex × ℚ) :=
  match counts with
  | [] => [(c, 0 + 1)]
  | (c', n) :: rest => if c' = c then (c', n + 1) :: rest else (c', n) :: bumpCount rest c

/-- Occurrence counts of a color list as an insertion-ordered association
list, like the plain-object accumulators `linkCounts` / `borderCounts` /
`textCounts` in `scraper.js`. -/
def countColors (l : List Hex) : List (Hex × ℚ) :=
  l.foldl bumpCount []

/-- One score-map entry (`scraper.js` 344-349): running `total`, the
insertion-ordered `categories` object, and the `vibrancy` computed once
when the color is first inserted. -/
structure ScoreEntry where
  total : ℚ
  categories : List (Category × ℚ)
  vibrancy : ℚ
deriving DecidableEq

/-- The `colorScores` map: keyed by normalized color, insertion-ordered. -/
abbrev ScoreMap := List (Hex × ScoreEntry)

/-- The update `entry.categories[category] = (entry.categories[category] || 0) + score`
(`scraper.js` 353): update the subtotal in place, or append a fresh key. -/
def setCat (cats : List (Category × ℚ)) (cat : Category) (s : ℚ) : List (Category × ℚ) :=
  match cats with
  | [] => [(cat, 0 + s)]
  | (c, v) :: rest => if c = cat then (c, v + s) :: rest else (c, v) :: setCat rest cat s

/-- Look up a category subtotal in the `categories` object. -/
def lookupCat (cats : List (Category × ℚ)) (cat : Category) : Option ℚ :=
  match cats with
  | [] => none
  | (c, v) :: rest => if c = cat then some v else lookupCat rest cat

/-- The read `data.categories[cat]` as a number (`undefined` reads as the
falsy/neutral value `0`; the code only ever combines this read with a
truthiness test or a `> 50` comparison, both of which treat `undefined`
and `0` alike). -/
def catValue (e : ScoreEntry) (cat : Category) : ℚ :=
  (lookupCat e.categories cat).getD 0

/-- JavaScript truthiness of `data.categories[cat]`: present and nonzero. -/
def catTruthy (e : ScoreEntry) (cat : Category) : Prop :=
  catValue e cat ≠ 0

instance (e : ScoreEntry) (cat : Category) : Decidable (catTruthy e cat) := by
  unfold catTruthy; infer_instance

/-- The `addScore` helper (`scraper.js` 341-354): create the entry on first sight
(with `total = 0` and `vibrancy` computed once) then add `score` to the
running total and to the per-category subtotal.  The `!color` null guard
cannot fire here: every modelled candidate carries a parsed color. -/
def addScore (m : ScoreMap) (color : Hex) (score : ℚ) (cat : Category) : ScoreMap :=
  match m with
  | [] => [(color, ⟨0 + score, setCat [] cat score, getColorVibrancy color⟩)]
  | (c, e) :: rest =>
    if c = color then
      (c, ⟨e.total + score, setCat e.categories cat score, e.vibrancy⟩) :: rest
    else
      (c, e) :: addScore rest color score cat

/-- Button scoring pass (`scraper.js` 358-365). -/
def scoreButtons (m : ScoreMap) (l : List ButtonCand) : ScoreMap :=
  l.foldl
    (fun m btn =>
      let vibrancy := getColorVibrancy btn.color
      let baseScore : ℚ := if btn.isVisible then 100 else 50
      let areaBonus := min (btn.area / 1000) 50
      let vibrancyBonus := vibrancy * 100
      addScore m btn.color (baseScore + areaBonus + vibrancyBonus) Category.button)
    m

/-- Link scoring pass (`scraper.js` 368-375): occurrence counts first,
then one `addScore` per distinct color. -/
def scoreLinks (m : ScoreMap) (links : List Hex) : ScoreMap :=
  (countColors links).foldl
    (fun m p =>
      let vibrancy := getColorVibrancy p.1
      addScore m p.1 (p.2 * 10 + vibrancy * 30) Category.link)
    m

/-- Background scoring pass (`scraper.js` 378-381). -/
def scoreBackgrounds (m : ScoreMap) (l : List BgCand) : ScoreMap :=
  l.foldl
    (fun m bg =>
      let score : ℚ := if bg.isHero then 30 else 15
      addScore m bg.color score Category.background)
    m

/-- Border scoring pass (`scraper.js` 384-394): occurrence counts, then a
score only for colors with vibrancy strictly above `0.3`. -/
def scoreBorders (m : ScoreMap) (borders : List Hex) : ScoreMap :=
  (countColors borders).foldl
    (fun m p =>
      let vibrancy := getColorVibrancy p.1
      if vibrancy > 0.3 then addScore m p.1 (p.2 * 15 + vibrancy * 40) Category.border else m)
    m

/-- SVG scoring pass (`scraper.js` 398-406). -/
def scoreSvgs (m : ScoreMap) (l : List SvgCand) : ScoreMap :=
  l.foldl
    (fun m svg =>
      let vibrancy := getColorVibrancy svg.color
      let headerBonus : ℚ := if svg.inHeader then 150 else 50
      addScore m svg.color (headerBonus + vibrancy * 80) Category.svg)
    m

/-- Accent-element scoring pass (`scraper.js` 409-414). -/
def scoreAccents (m : ScoreMap) (l : List AccentCand) : ScoreMap :=
  l.foldl
    (fun m a =>
      let vibrancy := getColorVibrancy a.color
      addScore m a.color (60 + vibrancy * 60) Category.accent)
    m

/-- The full `colorScores` accumulation of `classifyColors`
(`scraper.js` 309-414), with the passes in source order. -/
def aggregateScores (d : ColorData) : ScoreMap :=
  scoreAccents
    (scoreSvgs
      (scoreBorders
        (scoreBackgrounds
          (scoreLinks (scoreButtons [] d.buttons) d.links)
          d.backgrounds)
        d.borders)
      d.svgColors)
    d.accentElements

/-- The `sortedColors` list (`scraper.js` 436-438): filter to valid brand colors,
then stable-sort by descending total score. -/
def rankedColors (d : ColorData) : ScoreMap :=
  sortDesc (fun p => p.2.total)
    (filterP (fun p => isValidBrandColor p.1) (aggregateScores d))

/-- The `primaryColor` find cascade (`scraper.js` 440-459): vibrant
button color, else any vibrant high-total color, else any high button
color.  Returns the found `[color, data]` pair, before the positional
fallback applied at line 498. -/
def primaryFind (sorted : ScoreMap) : Option (Hex × ScoreEntry) :=
  match findP
      (fun p => catTruthy p.2 Category.button ∧ catValue p.2 Category.button > 50 ∧
        ¬ isNeutralOrDark p.1) sorted with
  | some x => some x
  | none =>
    match findP (fun p => ¬ isNeutralOrDark p.1 ∧ p.2.total > 50) sorted with
    | some x => some x
    | none =>
      findP (fun p => catTruthy p.2 Category.button ∧ catValue p.2 Category.button > 50) sorted

/-- JavaScript `color !== primaryColor?.[0]`: when the find produced
nothing, the optional chain yields `undefined` and the inequation holds. -/
def differsFromFound (found : Option (Hex × ScoreEntry)) (c : Hex) : Prop :=
  Option.map Prod.fst found ≠ some c

instance (found : Option (Hex × ScoreEntry)) (c : Hex) :
    Decidable (differsFromFound found c) := by
  unfold differsFromFound; infer_instance

/-- The `secondaryColor` find chain (`scraper.js` 461-472): first
non-primary vibrant color with a link/button/border subtotal, else (the
`||` branch) any non-primary color with a link or button subtotal. -/
def secondaryFind (sorted : ScoreMap) (primaryColor : Option (Hex × ScoreEntry)) :
    Option (Hex × ScoreEntry) :=
  match findP
      (fun p => differsFromFound primaryColor p.1 ∧
        (catTruthy p.2 Category.link ∨ catTruthy p.2 Category.button ∨
          catTruthy p.2 Category.border) ∧
        ¬ isNeutralOrDark p.1) sorted with
  | some x => some x
  | none =>
    findP
      (fun p => differsFromFound primaryColor p.1 ∧
        (catTruthy p.2 Category.link ∨ catTruthy p.2 Category.button)) sorted

/-- The `accentColor` find (`scraper.js` 492-495): first ranked color
different from the two finds above and not neutral-or-dark. -/
def accentFind (sorted : ScoreMap) (primaryColor secondaryColor : Option (Hex × ScoreEntry)) :
    Option (Hex × ScoreEntry) :=
  findP
    (fun p => differsFromFound primaryColor p.1 ∧ differsFromFound secondaryColor p.1 ∧
      ¬ isNeutralOrDark p.1) sorted

/-- The `bgColors` list (`scraper.js` 475-479): background candidates with area
strictly above `50000`, stable-sorted by descending area, first three
candidates, mapped to their colors (duplicates still present). -/
def bgColorList (d : ColorData) : List Hex :=
  (((sortDesc (fun bg => bg.area)
      (filterP (fun bg => bg.area > 50000) d.backgrounds)).take 3).map
    (fun bg => bg.color))

/-- The `textColors` list (`scraper.js` 482-489): occurrence counts of the raw
text colors, stable-sorted by descending count, first two, mapped to
their colors. -/
def textColorList (d : ColorData) : List Hex :=
  (((sortDesc (fun p => p.2) (countColors d.text)).take 2).map (fun p => p.1))

/-- One reported palette entry (`scraper.js` 505-509). -/
structure PaletteEntry where
  color : Hex
  score : ℚ
  usage : List Category
deriving DecidableEq

/-- The value returned by `classifyColors` (`scraper.js` 497-510). -/
structure PaletteResult where
  primary : Option Hex
  secondary : Option Hex
  background : Hex
  backgrounds : List Hex
  text : Hex
  textColors : List Hex
  accent : Option Hex
  palette : List PaletteEntry
deriving DecidableEq

/-- The `classifyColors` function (`scraper.js` 308-511).  The `?.[0] || ... || null`
chains of the return object are modelled with `Option`: a hex color
string is always truthy, so `x?.[0] || y` falls through exactly when the
find produced nothing. -/
def classifyColors (d : ColorData) : PaletteResult :=
  let sortedColors := rankedColors d
  let primaryColor := primaryFind sortedColors
  let secondaryColor := secondaryFind sortedColors primaryColor
  let bgColors := bgColorList d
  let textColors := textColorList d
  let accentColor := accentFind sortedColors primaryColor secondaryColor
  { primary :=
      match primaryColor with
      | some p => some p.1
      | none => sortedColors.head?.map Prod.fst
    secondary :=
      match secondaryColor with
      | some p => some p.1
      | none => (sortedColors.drop 1).head?.map Prod.fst
    background := bgColors.head?.getD ⟨255, 255, 255⟩
    backgrounds := dedupFirst bgColors
    text := textColors.head?.getD ⟨0, 0, 0⟩
    textColors := dedupFirst textColors
    accent :=
      match accentColor with
      | some p => some p.1
      | none => (sortedColors.drop 2).head?.map Prod.fst
    palette :=
      (sortedColors.take 8).map
        (fun p => ⟨p.1, p.2.total, p.2.categories.map Prod.fst⟩) }

/-- The `format` field of a logo candidate (`scraper.js` 635-640, 662,
678): one of the strings `"svg"`, `"png"`, `"other"`. -/
inductive ImgFormat
  | svg
  | png
  | other
deriving DecidableEq

/-- The `type` field of a logo candidate (`"img"`, `"svg"`, `"favicon"`);
carried by the source objects but never read when ranking. -/
inductive LogoKind
  | img
  | svg
  | favicon
deriving DecidableEq

/-- A logo candidate as built inside `extractLogo` (`scraper.js`
628-641, 655-663, 671-679). -/
structure LogoCandidate where
  kind : LogoKind
  src : String
  width : ℚ
  height : ℚ
  inHeader : Bool
  hasLogoKeyword : Bool
  format : ImgFormat

/-- The sequential `score += ...` accumulation of `extractLogo`
(`scraper.js` 687-704), one `let` per source statement. -/
def logoScore (l : LogoCandidate) : ℚ :=
  let s0 : ℚ := 0
  let s1 : ℚ :=
    if l.format = ImgFormat.svg then s0 + 50
    else if l.format = ImgFormat.png then s0 + 30
    else s0
  let area := l.width * l.height
  let s2 : ℚ := if area > 500 ∧ area < 50000 then s1 + 30 else s1
  let s3 : ℚ := if l.inHeader then s2 + 40 else s2
  if l.hasLogoKeyword then s3 + 30 else s3

/-- A candidate paired with its score (the `{ ...logo, score }` objects). -/
structure ScoredLogo where
  cand : LogoCandidate
  score : ℚ

/-- One `alternatives` entry (`scraper.js` 715-718). -/
structure LogoAlternative where
  url : String
  format : ImgFormat
deriving DecidableEq

/-- The value returned by `extractLogo` (`scraper.js` 710-719). -/
structure LogoResult where
  url : Option String
  format : Option ImgFormat
  width : Option ℚ
  height : Option ℚ
  alternatives : List LogoAlternative

/-- The `scored` list (`scraper.js` 686-706): score every candidate, then
stable-sort by descending score. -/
def rankLogoCandidates (cands : List LogoCandidate) : List ScoredLogo :=
  sortDesc (fun s => s.score) (cands.map (fun l => ⟨l, logoScore l⟩))

/-- The return object of `extractLogo` (`scraper.js` 708-719).  The
`best?.field || null` chains read the top-ranked candidate: `null` when
there is no candidate, and also when the field itself is falsy (the
empty string for `src`, `0` for `width`/`height`); `format` strings are
never empty, hence always truthy. -/
def extractLogoResult (cands : List LogoCandidate) : LogoResult :=
  let scored := rankLogoCandidates cands
  let best := scored.head?
  { url :=
      match best with
      | none => none
      | some b => if b.cand.src = "" then none else some b.cand.src
    format :=
      match best with
      | none => none
      | some b => some b.cand.format
    width :=
      match best with
      | none => none
      | some b => if b.cand.width = 0 then none else some b.cand.width
    height :=
      match best with
      | none => none
      | some b => if b.cand.height = 0 then none else some b.cand.height
    alternatives :=
      ((scored.drop 1).take 3).map (fun s => ⟨s.cand.src, s.cand.format⟩) }

/-- C2, claim side: the primary-selection cascade exactly as the spec
words it — first ranked entry with button subtotal above `50` and not
neutral-or-dark; else first not neutral-or-dark with total above `50`;
else first with button subtotal above `50`; else the first ranked entry;
else `null`. -/
def primarySpec (d : ColorData) : Option Hex :=
  let ranked := rankedColors d
  match findP (fun p => catValue p.2 Category.button > 50 ∧ ¬ isNeutralOrDark p.1) ranked with
  | some p => some p.1
  | none =>
    match findP (fun p => ¬ isNeutralOrDark p.1 ∧ p.2.total > 50) ranked with
    | some p => some p.1
    | none =>
      match findP (fun p => catValue p.2 Category.button > 50) ranked with
      | some p => some p.1
      | none => ranked.head?.map Prod.fst

/-- C1, claim side: secondary as the spec words it — first ranked entry,
excluding the chosen primary, with a nonzero link, button or border
subtotal and not neutral-or-dark; if none, the same search with the
neutrality requirement dropped; else `null`. -/
def secondarySpecClaimed (d : ColorData) : Option Hex :=
  let ranked := rankedColors d
  let chosenPrimary := (classifyColors d).primary
  match findP
      (fun p => chosenPrimary ≠ some p.1 ∧
        (catValue p.2 Category.link ≠ 0 ∨ catValue p.2 Category.button ≠ 0 ∨
          catValue p.2 Category.border ≠ 0) ∧
        ¬ isNeutralOrDark p.1) ranked with
  | some p => some p.1
  | none =>
    match findP
        (fun p => chosenPrimary ≠ some p.1 ∧
          (catValue p.2 Category.link ≠ 0 ∨ catValue p.2 Category.button ≠ 0 ∨
            catValue p.2 Category.border ≠ 0)) ranked with
    | some p => some p.1
    | none => none

/-- C1, amended: what the code actually does — the exclusion compares
against the color found by the primary predicate cascade (before its
positional fallback); the relaxed second search drops the border
category together with the neutrality requirement; and when both
searches fail the secondary falls back to the second ranked entry, with
`null` only when that does not exist. -/
def secondarySpecAmended (d : ColorData) : Option Hex :=
  let ranked := rankedColors d
  let found := primaryFind ranked
  match findP
      (fun p => differsFromFound found p.1 ∧
        (catValue p.2 Category.link ≠ 0 ∨ catValue p.2 Category.button ≠ 0 ∨
          catValue p.2 Category.border ≠ 0) ∧
        ¬ isNeutralOrDark p.1) ranked with
  | some p => some p.1
  | none =>
    match findP
        (fun p => differsFromFound found p.1 ∧
          (catValue p.2 Category.link ≠ 0 ∨ catValue p.2 Category.button ≠ 0)) ranked with
    | some p => some p.1
    | none => (ranked.drop 1).head?.map Prod.fst

/-- C3, claim side: accent as the spec words it — first ranked entry
distinct from both the chosen primary and the chosen secondary and not
neutral-or-dark; else `null`. -/
def accentSpecClaimed (d : ColorData) : Option Hex :=
  let ranked := rankedColors d
  let chosenPrimary := (classifyColors d).primary
  let chosenSecondary := (classifyColors d).secondary
  match findP
      (fun p => chosenPrimary ≠ some p.1 ∧ chosenSecondary ≠ some p.1 ∧
        ¬ isNeutralOrDark p.1) ranked with
  | some p => some p.1
  | none => none

/-- C3, amended: what the code actually does — the exclusions compare
against the colors found by the primary and secondary predicate searches
(before their positional fallbacks), and when the search fails the
accent falls back to the third ranked entry, with `null` only when that
does not exist. -/
def accentSpecAmended (d : ColorData) : Option Hex :=
  let ranked := rankedColors d
  let foundPrimary := primaryFind ranked
  let foundSecondary := secondaryFind ranked foundPrimary
  match findP
      (fun p => differsFromFound foundPrimary p.1 ∧ differsFromFound foundSecondary p.1 ∧
        ¬ isNeutralOrDark p.1) ranked with
  | some p => some p.1
  | none => (ranked.drop 2).head?.map Prod.fst

/-- C5, claim side: the qualifying background candidates (area strictly
above `50000`) sorted by descending area, and then the first three
distinct colors of that order. -/
def backgroundsSpecClaimed (d : ColorData) : List Hex :=
  (dedupFirst
    ((sortDesc (fun bg => bg.area)
        (filterP (fun bg => bg.area > 50000) d.backgrounds)).map
      (fun bg => bg.color))).take 3

/-- C5, amended: what the code actually does — take the first three
qualifying candidates of the descending-area order and only then
deduplicate their colors, so fewer than three distinct colors may be
reported even when more distinct qualifying colors exist. -/
def backgroundsSpecAmended (d : ColorData) : List Hex :=
  dedupFirst
    (((sortDesc (fun bg => bg.area)
        (filterP (fun bg => bg.area > 50000) d.backgrounds)).take 3).map
      (fun bg => bg.color))

/-- C8, claim side: saturation as the claim words it —
`(max(r,g,b) - min(r,g,b)) / max(r,g,b)`, and `0` when `max(r,g,b) = 0`
(in this exact-arithmetic model the value is always defined, never a
`NaN`). -/
def saturationSpec (c : Hex) : ℚ :=
  if Nat.max c.r (Nat.max c.g c.b) = 0 then 0
  else ((Nat.max c.r (Nat.max c.g c.b) : ℚ) - (Nat.min c.r (Nat.min c.g c.b) : ℚ)) /
    (Nat.max c.r (Nat.max c.g c.b) : ℚ)

/-- C7, claim side: the candidate score as one sum of four bonuses —
format bonus (`svg` 50, `png` 30, otherwise 0), area bonus (30 when
`500 < width*height < 50000`), header bonus (40) and keyword bonus (30). -/
def logoScoreSpec (l : LogoCandidate) : ℚ :=
  (if l.format = ImgFormat.svg then (50 : ℚ) else if l.format = ImgFormat.png then 30 else 0) +
    (if 500 < l.width * l.height ∧ l.width * l.height < 50000 then (30 : ℚ) else 0) +
    (if l.inHeader then (40 : ℚ) else 0) +
    (if l.hasLogoKeyword then (30 : ℚ) else 0)

/-- C4: the sum of the per-category subtotals of one score-map entry. -/
def catSum (e : ScoreEntry) : ℚ :=
  (e.categories.map Prod.snd).sum

/-- C4 invariant: every entry of the score map keeps
`total == sum(categoryTotals.values())`. -/
def TotalsAdditive (m : ScoreMap) : Prop :=
  ∀ p ∈ m, p.2.total = catSum p.2

/-- C10 invariant: every entry has a strictly positive total, strictly
positive per-category subtotals, and a nonempty `categories` object. -/
def EntriesPositive (m : ScoreMap) : Prop :=
  ∀ p ∈ m, 0 < p.2.total ∧ (∀ q ∈ p.2.categories, 0 < q.2) ∧ p.2.categories ≠ []

/-- C6: all candidate lists empty. -/
def dEmpty : ColorData := ⟨[], [], [], [], [], [], []⟩

/-- C9: a single link whose color has saturation `0.2` — valid as a brand
color but neutral-or-dark, with a link score of `16`. -/
def dLinkOnly : ColorData := ⟨[], [⟨100, 80, 80⟩], [], [], [], [], []⟩

/-- C1: two mid-grays observed only as section backgrounds (the first is
a hero section), both valid brand colors and both neutral-or-dark. -/
def dTwoGrays : ColorData :=
  ⟨[], [], [⟨⟨128, 128, 128⟩, 1000, true⟩, ⟨⟨100, 100, 100⟩, 1000, false⟩], [], [], [], []⟩

/-- C3: three mid-grays observed only as section backgrounds. -/
def dThreeGrays : ColorData :=
  ⟨[], [],
    [⟨⟨128, 128, 128⟩, 1000, true⟩, ⟨⟨100, 100, 100⟩, 1000, false⟩,
      ⟨⟨80, 80, 80⟩, 1000, false⟩],
    [], [], [], []⟩

/-- C5: four large background candidates, the two largest sharing one
color, so that three distinct colors qualify but only two survive the
take-three-then-deduplicate order of the code. -/
def dFourBgs : ColorData :=
  ⟨[], [],
    [⟨⟨1, 2, 3⟩, 100000, false⟩, ⟨⟨1, 2, 3⟩, 90000, false⟩,
      ⟨⟨4, 5, 6⟩, 80000, false⟩, ⟨⟨7, 8, 9⟩, 70000, false⟩],
    [], [], [], []⟩

/-- C7 witness data: an SVG logo candidate in the header. -/
def logoA : LogoCandidate :=
  ⟨LogoKind.img, "https://example.com/logo.svg", 100, 40, true, true, ImgFormat.svg⟩

/-- C7 witness data: a PNG logo candidate in the header. -/
def logoB : LogoCandidate :=
  ⟨LogoKind.img, "https://example.com/logo.png", 100, 40, true, true, ImgFormat.png⟩

theorem findP_congr {p q : α → Prop} [DecidablePred p] [DecidablePred q] :
    ∀ l : List α, (∀ x ∈ l, (p x ↔ q x)) → findP p l = findP q l
  | [], _ => rfl
  | x :: xs, h => by
    have hx := h x (List.mem_cons_self x xs)
    by_cases hp : p x
    · rw [findP, findP, if_pos hp, if_pos (hx.mp hp)]
    · rw [findP, findP, if_neg hp, if_neg (fun hq => hp (hx.mpr hq)),
        findP_congr xs (fun y hy => h y (List.mem_cons_of_mem x hy))]

theorem foldlPreserves {f : β → α → β} {P : β → Prop} :
    ∀ (l : List α) (b : β), (∀ b x, x ∈ l → P b → P (f b x)) → P b → P (l.foldl f b)
  | [], _, _, hb => hb
  | x :: xs, b, h, hb =>
    foldlPreserves xs (f b x)
      (fun b' y hy => h b' y (List.mem_cons_of_mem x hy))
      (h b x (List.mem_cons_self x xs) hb)

theorem satQ_nonneg (c : Hex) : 0 ≤ satQ c := by
  unfold satQ
  by_cases h : Nat.max c.r (Nat.max c.g c.b) = 0
  · simp [h]
  · simp only [if_neg h]
    apply div_nonneg
    · have hmn : Nat.min c.r (Nat.min c.g c.b) ≤ Nat.max c.r (Nat.max c.g c.b) :=
        le_trans (Nat.min_le_left _ _) (Nat.le_max_left _ _)
      have := Nat.cast_le (α := ℚ).mpr hmn
      linarith
    · exact Nat.cast_nonneg _

theorem getColorVibrancy_nonneg (c : Hex) : 0 ≤ getColorVibrancy c := by
  unfold getColorVibrancy
  apply mul_nonneg (satQ_nonneg c)
  split <;> norm_num

theorem mem_insertDesc {key : α → ℚ} {x y : α} :
    ∀ {l : List α}, y ∈ insertDesc key x l ↔ y = x ∨ y ∈ l
  | [] => by simp [insertDesc]
  | z :: zs => by
    rw [insertDesc]
    split
    · simp
    · simp only [List.mem_cons, mem_insertDesc (l := zs)]
      tauto

theorem mem_sortDesc {key : α → ℚ} {y : α} :
    ∀ {l : List α}, y ∈ sortDesc key l ↔ y ∈ l
  | [] => Iff.rfl
  | x :: xs => by
    rw [sortDesc, mem_insertDesc, mem_sortDesc (l := xs), List.mem_cons]

theorem mem_filterP {p : α → Prop} [DecidablePred p] {y : α} :
    ∀ {l : List α}, y ∈ filterP p l → y ∈ l
  | [], h => h
  | x :: xs, h => by
    rw [filterP] at h
    split at h
    · rcases List.mem_cons.mp h with h | h
      · exact h ▸ List.mem_cons_self x xs
      · exact List.mem_cons_of_mem x (mem_filterP h)
    · exact List.mem_cons_of_mem x (mem_filterP h)

theorem setCat_sum (cat : Category) (s : ℚ) :
    ∀ cats : List (Category × ℚ),
      ((setCat cats cat s).map Prod.snd).sum = (cats.map Prod.snd).sum + s
  | [] => by simp [setCat]
  | (c, v) :: rest => by
    rw [setCat]
    split
    · simp only [List.map_cons, List.sum_cons]
      ring
    · simp only [List.map_cons, List.sum_cons, setCat_sum cat s rest]
      ring

theorem setCat_ne_nil (cats : List (Category × ℚ)) (cat : Category) (s : ℚ) :
    setCat cats cat s ≠ [] := by
  cases cats with
  | nil => simp [setCat]
  | cons hd tl =>
    obtain ⟨c, v⟩ := hd
    rw [setCat]
    split <;> simp

theorem setCat_pos {cats : List (Category × ℚ)} (hcats : ∀ q ∈ cats, 0 < q.2)
    {s : ℚ} (hs : 0 < s) (cat : Category) : ∀ q ∈ setCat cats cat s, 0 < q.2 := by
  induction cats with
  | nil =>
    intro q hq
    rw [setCat] at hq
    simp only [List.mem_singleton] at hq
    subst hq
    simpa using hs
  | cons hd tl ih =>
    obtain ⟨c, v⟩ := hd
    intro q hq
    rw [setCat] at hq
    split at hq
    · rcases List.mem_cons.mp hq with h | h
      · subst h
        have := hcats (c, v) (List.mem_cons_self _ _)
        simp only at this ⊢
        linarith
      · exact hcats q (List.mem_cons_of_mem _ h)
    · rcases List.mem_cons.mp hq with h | h
      · subst h
        exact hcats (c, v) (List.mem_cons_self _ _)
      · exact ih (fun q hq => hcats q (List.mem_cons_of_mem _ hq)) q h


theorem addScore_additive {m : ScoreMap} (hm : TotalsAdditive m)
    (color : Hex) (s : ℚ) (cat : Category) : TotalsAdditive (addScore m color s cat) := by
  induction m with
  | nil =>
    intro p hp
    rw [addScore] at hp
    simp only [List.mem_singleton] at hp
    subst hp
    simp [catSum, setCat]
  | cons hd tl ih =>
    obtain ⟨c, e⟩ := hd
    intro p hp
    rw [addScore] at hp
    split at hp
    · rcases List.mem_cons.mp hp with h | h
      · subst h
        have he := hm (c, e) (List.mem_cons_self _ _)
        simp only [catSum] at he ⊢
        rw [setCat_sum, ← he]
      · exact hm p (List.mem_cons_of_mem _ h)
    · rcases List.mem_cons.mp hp with h | h
      · subst h
        exact hm (c, e) (List.mem_cons_self _ _)
      · exact ih (fun q hq => hm q (List.mem_cons_of_mem _ hq)) p h

theorem addScore_positive {m : ScoreMap} (hm : EntriesPositive m)
    (color : Hex) {s : ℚ} (hs : 0 < s) (cat : Category) :
    EntriesPositive (addScore m color s cat) := by
  induction m with
  | nil =>
    intro p hp
    rw [addScore] at hp
    simp only [List.mem_singleton] at hp
    subst hp
    refine ⟨by simpa using hs, ?_, by simp [setCat]⟩
    intro q hq
    rw [setCat] at hq
    simp only [List.mem_singleton] at hq
    subst hq
    simpa using hs
  | cons hd tl ih =>
    obtain ⟨c, e⟩ := hd
    intro p hp
    rw [addScore] at hp
    split at hp
    · rcases List.mem_cons.mp hp with h | h
      · subst h
        obtain ⟨h1, h2, _⟩ := hm (c, e) (List.mem_cons_self _ _)
        exact ⟨by simp only; linarith, setCat_pos h2 hs cat, setCat_ne_nil _ _ _⟩
      · exact hm p (List.mem_cons_of_mem _ h)
    · rcases List.mem_cons.mp hp with h | h
      · subst h
        exact hm (c, e) (List.mem_cons_self _ _)
      · exact ih (fun q hq => hm q (List.mem_cons_of_mem _ hq)) p h

theorem bumpCount_one_le {counts : List (Hex × ℚ)}
    (hcounts : ∀ q ∈ counts, (1 : ℚ) ≤ q.2) (c : Hex) :
    ∀ q ∈ bumpCount counts c, (1 : ℚ) ≤ q.2 := by
  induction counts with
  | nil =>
    intro q hq
    rw [bumpCount] at hq
    simp only [List.mem_singleton] at hq
    subst hq
    norm_num
  | cons hd tl ih =>
    obtain ⟨c', n⟩ := hd
    intro q hq
    rw [bumpCount] at hq
    split at hq
    · rcases List.mem_cons.mp hq with h | h
      · subst h
        have := hcounts (c', n) (List.mem_cons_self _ _)
        simp only at this ⊢
        linarith
      · exact hcounts q (List.mem_cons_of_mem _ h)
    · rcases List.mem_cons.mp hq with h | h
      · subst h
        exact hcounts (c', n) (List.mem_cons_self _ _)
      · exact ih (fun q hq => hcounts q (List.mem_cons_of_mem _ hq)) q h

theorem countColors_one_le (l : List Hex) : ∀ q ∈ countColors l, (1 : ℚ) ≤ q.2 :=
  foldlPreserves (P := fun counts : List (Hex × ℚ) => ∀ q ∈ counts, (1 : ℚ) ≤ q.2) l []
    (fun counts c _ hcounts => bumpCount_one_le hcounts c)
    (by intro q hq; simp at hq)

theorem buttonScoreBound (b : ButtonCand) (h : 0 ≤ b.area) :
    50 ≤ (if b.isVisible then (100 : ℚ) else 50) + min (b.area / 1000) 50 +
      getColorVibrancy b.color * 100 := by
  have h1 : (50 : ℚ) ≤ if b.isVisible then (100 : ℚ) else 50 := by split <;> norm_num
  have h2 : (0 : ℚ) ≤ min (b.area / 1000) 50 :=
    le_min (by positivity) (by norm_num)
  have h3 := getColorVibrancy_nonneg b.color
  linarith

theorem linkScoreBound (c : Hex) {n : ℚ} (hn : 1 ≤ n) :
    10 ≤ n * 10 + getColorVibrancy c * 30 := by
  have := getColorVibrancy_nonneg c
  linarith

theorem backgroundScoreBound (b : BgCand) : 15 ≤ (if b.isHero then (30 : ℚ) else 15) := by
  split <;> norm_num

theorem borderScoreBound (c : Hex) {n : ℚ} (hn : 1 ≤ n)
    (hv : getColorVibrancy c > 0.3) : 0 < n * 15 + getColorVibrancy c * 40 := by
  linarith

theorem svgScoreBound (s : SvgCand) :
    50 ≤ (if s.inHeader then (150 : ℚ) else 50) + getColorVibrancy s.color * 80 := by
  have h1 : (50 : ℚ) ≤ if s.inHeader then (150 : ℚ) else 50 := by split <;> norm_num
  have h2 := getColorVibrancy_nonneg s.color
  linarith

theorem accentScoreBound (a : AccentCand) : 60 ≤ 60 + getColorVibrancy a.color * 60 := by
  have := getColorVibrancy_nonneg a.color
  linarith

theorem scoreButtons_additive {m : ScoreMap} (hm : TotalsAdditive m) (l : List ButtonCand) :
    TotalsAdditive (scoreButtons m l) :=
  foldlPreserves (P := TotalsAdditive) l m
    (fun m b _ hm => addScore_additive hm _ _ _) hm

theorem scoreLinks_additive {m : ScoreMap} (hm : TotalsAdditive m) (links : List Hex) :
    TotalsAdditive (scoreLinks m links) :=
  foldlPreserves (P := TotalsAdditive) (countColors links) m
    (fun m p _ hm => addScore_additive hm _ _ _) hm

theorem scoreBackgrounds_additive {m : ScoreMap} (hm : TotalsAdditive m) (l : List BgCand) :
    TotalsAdditive (scoreBackgrounds m l) :=
  foldlPreserves (P := TotalsAdditive) l m
    (fun m b _ hm => addScore_additive hm _ _ _) hm

theorem scoreBorders_additive {m : ScoreMap} (hm : TotalsAdditive m) (borders : List Hex) :
    TotalsAdditive (scoreBorders m borders) :=
  foldlPreserves (P := TotalsAdditive) (countColors borders) m
    (fun m p _ hm => by
      dsimp only
      split
      · exact addScore_additive hm _ _ _
      · exact hm) hm

theorem scoreSvgs_additive {m : ScoreMap} (hm : TotalsAdditive m) (l : List SvgCand) :
    TotalsAdditive (scoreSvgs m l) :=
  foldlPreserves (P := TotalsAdditive) l m
    (fun m s _ hm => addScore_additive hm _ _ _) hm

theorem scoreAccents_additive {m : ScoreMap} (hm : TotalsAdditive m) (l : List AccentCand) :
    TotalsAdditive (scoreAccents m l) :=
  foldlPreserves (P := TotalsAdditive) l m
    (fun m a _ hm => addScore_additive hm _ _ _) hm

theorem aggregateScores_additive (d : ColorData) : TotalsAdditive (aggregateScores d) :=
  scoreAccents_additive
    (scoreSvgs_additive
      (scoreBorders_additive
        (scoreBackgrounds_additive
          (scoreLinks_additive
            (scoreButtons_additive (fun p hp => absurd hp (List.not_mem_nil p)) d.buttons)
            d.links)
          d.backgrounds)
        d.borders)
      d.svgColors)
    d.accentElements

theorem scoreButtons_positive {m : ScoreMap} (hm : EntriesPositive m) {l : List ButtonCand}
    (h : ∀ b ∈ l, 0 ≤ b.area) : EntriesPositive (scoreButtons m l) :=
  foldlPreserves (P := EntriesPositive) l m
    (fun m b hb hm =>
      addScore_positive hm b.color
        (lt_of_lt_of_le (by norm_num) (buttonScoreBound b (h b hb))) Category.button) hm

theorem scoreLinks_positive {m : ScoreMap} (hm : EntriesPositive m) (links : List Hex) :
    EntriesPositive (scoreLinks m links) :=
  foldlPreserves (P := EntriesPositive) (countColors links) m
    (fun m p hp hm =>
      addScore_positive hm p.1
        (lt_of_lt_of_le (by norm_num) (linkScoreBound p.1 (countColors_one_le links p hp)))
        Category.link) hm

theorem scoreBackgrounds_positive {m : ScoreMap} (hm : EntriesPositive m) (l : List BgCand) :
    EntriesPositive (scoreBackgrounds m l) :=
  foldlPreserves (P := EntriesPositive) l m
    (fun m b _ hm =>
      addScore_positive hm b.color
        (lt_of_lt_of_le (by norm_num) (backgroundScoreBound b)) Category.background) hm

theorem scoreBorders_positive {m : ScoreMap} (hm : EntriesPositive m) (borders : List Hex) :
    EntriesPositive (scoreBorders m borders) :=
  foldlPreserves (P := EntriesPositive) (countColors borders) m
    (fun m p hp hm => by
      dsimp only
      split
      · next hv =>
        exact addScore_positive hm p.1
          (borderScoreBound p.1 (countColors_one_le borders p hp) hv) Category.border
      · exact hm) hm

theorem scoreSvgs_positive {m : ScoreMap} (hm : EntriesPositive m) (l : List SvgCand) :
    EntriesPositive (scoreSvgs m l) :=
  foldlPreserves (P := EntriesPositive) l m
    (fun m s _ hm =>
      addScore_positive hm s.color
        (lt_of_lt_of_le (by norm_num) (svgScoreBound s)) Category.svg) hm

theorem scoreAccents_positive {m : ScoreMap} (hm : EntriesPositive m) (l : List AccentCand) :
    EntriesPositive (scoreAccents m l) :=
  foldlPreserves (P := EntriesPositive) l m
    (fun m a _ hm =>
      addScore_positive hm a.color
        (lt_of_lt_of_le (by norm_num) (accentScoreBound a)) Category.accent) hm

theorem aggregateScores_positive (d : ColorData) (harea : ∀ b ∈ d.buttons, 0 ≤ b.area) :
    EntriesPositive (aggregateScores d) :=
  scoreAccents_positive
    (scoreSvgs_positive
      (scoreBorders_positive
        (scoreBackgrounds_positive
          (scoreLinks_positive
            (scoreButtons_positive (fun p hp => absurd hp (List.not_mem_nil p)) harea)
            d.links)
          d.backgrounds)
        d.borders)
      d.svgColors)
    d.accentElements

theorem lookupCat_mem {cat : Category} {v : ℚ} :
    ∀ {cats : List (Category × ℚ)}, lookupCat cats cat = some v → (cat, v) ∈ cats
  | [], h => by simp [lookupCat] at h
  | (c, w) :: rest, h => by
    rw [lookupCat] at h
    split at h
    · next hc =>
      obtain rfl := hc
      obtain rfl : w = v := by simpa using h
      exact List.mem_cons_self _ _
    · exact List.mem_cons_of_mem _ (lookupCat_mem h)

theorem lookupCat_eq_none {cat : Category} :
    ∀ {l : List (Category × ℚ)},
      lookupCat l cat = none ↔ cat ∉ l.map Prod.fst
  | [] => by simp [lookupCat]
  | (c, w) :: rest => by
    rw [lookupCat]
    split
    · next hc => simp [hc]
    · next hc =>
      simp only [List.map_cons, List.mem_cons, lookupCat_eq_none (l := rest)]
      constructor
      · rintro h (h1 | h1)
        · exact hc h1.symm
        · exact h h1
      · intro h h1
        exact h (Or.inr h1)

theorem catValue_ne_iff {e : ScoreEntry} (hpos : ∀ q ∈ e.categories, 0 < q.2)
    (cat : Category) : cat ∈ e.categories.map Prod.fst ↔ catValue e cat ≠ 0 := by
  constructor
  · intro hmem
    cases hv : lookupCat e.categories cat with
    | none => exact absurd (lookupCat_eq_none.mp hv) (by simpa using hmem)
    | some v =>
      have := hpos (cat, v) (lookupCat_mem hv)
      simp only [catValue, hv, Option.getD_some]
      exact ne_of_gt this
  · intro hne
    by_contra hmem
    have := lookupCat_eq_none.mpr hmem
    simp [catValue, this] at hne

theorem rankedColors_subset {d : ColorData} {p : Hex × ScoreEntry}
    (hp : p ∈ rankedColors d) : p ∈ aggregateScores d := by
  unfold rankedColors at hp
  exact mem_filterP (mem_sortDesc.mp hp)

theorem classifyColors_primary (d : ColorData) :
    (classifyColors d).primary =
      match primaryFind (rankedColors d) with
      | some p => some p.1
      | none => (rankedColors d).head?.map Prod.fst := rfl

theorem classifyColors_secondary (d : ColorData) :
    (classifyColors d).secondary =
      match secondaryFind (rankedColors d) (primaryFind (rankedColors d)) with
      | some p => some p.1
      | none => ((rankedColors d).drop 1).head?.map Prod.fst := rfl

theorem classifyColors_accent (d : ColorData) :
    (classifyColors d).accent =
      match accentFind (rankedColors d) (primaryFind (rankedColors d))
          (secondaryFind (rankedColors d) (primaryFind (rankedColors d))) with
      | some p => some p.1
      | none => ((rankedColors d).drop 2).head?.map Prod.fst := rfl

theorem classifyColors_background (d : ColorData) :
    (classifyColors d).background = (bgColorList d).head?.getD ⟨255, 255, 255⟩ := rfl

theorem classifyColors_backgrounds (d : ColorData) :
    (classifyColors d).backgrounds = dedupFirst (bgColorList d) := rfl

theorem classifyColors_palette (d : ColorData) :
    (classifyColors d).palette =
      ((rankedColors d).take 8).map
        (fun p => ⟨p.1, p.2.total, p.2.categories.map Prod.fst⟩) := rfl

theorem dedupFirst_head [DecidableEq α] (l : List α) :
    (dedupFirst l).head? = l.head? := by
  cases l with
  | nil => rfl
  | cons x xs =>
    show (dedupSeen [] (x :: xs)).head? = some x
    rw [dedupSeen]
    simp


/-- C6: when all input color candidate lists are empty, `classifyColors`
returns `primary = null`, `secondary = null`, `background = "#ffffff"`
(the triple `(255,255,255)`), `text = "#000000"` (the triple `(0,0,0)`),
and an empty palette.  `classifyColors` is a total function of its input,
so no error can be raised. -/
theorem C6_empty_defaults :
    (classifyColors dEmpty).primary = none ∧
      (classifyColors dEmpty).secondary = none ∧
      (classifyColors dEmpty).background = ⟨255, 255, 255⟩ ∧
      (classifyColors dEmpty).text = ⟨0, 0, 0⟩ ∧
      (classifyColors dEmpty).palette = [] :=
  ⟨rfl, rfl, rfl, rfl, rfl⟩

/-- C8: `isNeutral` holds exactly when the saturation
`(max(r,g,b) - min(r,g,b)) / max(r,g,b)` — which is `0`, not undefined,
when `max(r,g,b) = 0` — is strictly below `0.15`; and the color
`(20,17,17)`, whose saturation is exactly `0.15`, is not neutral. -/
theorem C8_neutral_boundary :
    (∀ c : Hex, isNeutral c ↔ saturationSpec c < 0.15) ∧
      (∀ c : Hex, Nat.max c.r (Nat.max c.g c.b) = 0 → saturationSpec c = 0) ∧
      saturationSpec ⟨20, 17, 17⟩ = 0.15 ∧ ¬ isNeutral ⟨20, 17, 17⟩ := by
  refine ⟨fun c => Iff.rfl, fun c h => by simp [saturationSpec, h], ?_, ?_⟩
  · norm_num [saturationSpec, Nat.max_def, Nat.min_def]
  · norm_num [isNeutral, satQ, Nat.max_def, Nat.min_def]

/-- C2: the reported primary color follows the spec cascade exactly —
first ranked entry with button subtotal above `50` and not
neutral-or-dark; else first not neutral-or-dark entry with total above
`50`; else first entry with button subtotal above `50` regardless of
neutrality; else the first ranked entry; else `null`. -/
theorem C2_primary_cascade (d : ColorData) :
    (classifyColors d).primary = primarySpec d := by
  have e1 : findP (fun p : Hex × ScoreEntry => catTruthy p.2 Category.button ∧
        catValue p.2 Category.button > 50 ∧ ¬ isNeutralOrDark p.1) (rankedColors d) =
      findP (fun p : Hex × ScoreEntry => catValue p.2 Category.button > 50 ∧
        ¬ isNeutralOrDark p.1) (rankedColors d) :=
    findP_congr _ (fun x _ =>
      ⟨fun h => ⟨h.2.1, h.2.2⟩,
        fun h => ⟨ne_of_gt (lt_trans (by norm_num) h.1), h.1, h.2⟩⟩)
  have e3 : findP (fun p : Hex × ScoreEntry => catTruthy p.2 Category.button ∧
        catValue p.2 Category.button > 50) (rankedColors d) =
      findP (fun p : Hex × ScoreEntry => catValue p.2 Category.button > 50)
        (rankedColors d) :=
    findP_congr _ (fun x _ =>
      ⟨fun h => h.2, fun h => ⟨ne_of_gt (lt_trans (by norm_num) h), h⟩⟩)
  rw [classifyColors_primary]
  simp only [primaryFind, primarySpec, e1, e3]
  rcases h1 : findP (fun p : Hex × ScoreEntry => catValue p.2 Category.button > 50 ∧
      ¬ isNeutralOrDark p.1) (rankedColors d) with _ | x1 <;>
    rcases h2 : findP (fun p : Hex × ScoreEntry => ¬ isNeutralOrDark p.1 ∧
        p.2.total > 50) (rankedColors d) with _ | x2 <;>
      rcases h3 : findP (fun p : Hex × ScoreEntry => catValue p.2 Category.button > 50)
          (rankedColors d) with _ | x3 <;>
        simp [h1, h2, h3]

/-- C1 (amended): the reported secondary is the first ranked entry other
than the color found by the primary predicate cascade with a nonzero
link, button or border subtotal and not neutral-or-dark; if none, the
first such entry with a nonzero link or button subtotal (the border
category is dropped together with the neutrality requirement); if both
searches fail, the second ranked entry; else `null`. -/
theorem C1_secondary_amended (d : ColorData) :
    (classifyColors d).secondary = secondarySpecAmended d := by
  have e1 : findP (fun p : Hex × ScoreEntry =>
        differsFromFound (primaryFind (rankedColors d)) p.1 ∧
        (catTruthy p.2 Category.link ∨ catTruthy p.2 Category.button ∨
          catTruthy p.2 Category.border) ∧
        ¬ isNeutralOrDark p.1) (rankedColors d) =
      findP (fun p : Hex × ScoreEntry =>
        differsFromFound (primaryFind (rankedColors d)) p.1 ∧
        (catValue p.2 Category.link ≠ 0 ∨ catValue p.2 Category.button ≠ 0 ∨
          catValue p.2 Category.border ≠ 0) ∧
        ¬ isNeutralOrDark p.1) (rankedColors d) :=
    findP_congr _ (fun x _ => Iff.rfl)
  have e2 : findP (fun p : Hex × ScoreEntry =>
        differsFromFound (primaryFind (rankedColors d)) p.1 ∧
        (catTruthy p.2 Category.link ∨ catTruthy p.2 Category.button)) (rankedColors d) =
      findP (fun p : Hex × ScoreEntry =>
        differsFromFound (primaryFind (rankedColors d)) p.1 ∧
        (catValue p.2 Category.link ≠ 0 ∨ catValue p.2 Category.button ≠ 0))
        (rankedColors d) :=
    findP_congr _ (fun x _ => Iff.rfl)
  rw [classifyColors_secondary]
  simp only [secondaryFind, secondarySpecAmended, e1, e2]
  rcases h1 : findP (fun p : Hex × ScoreEntry =>
      differsFromFound (primaryFind (rankedColors d)) p.1 ∧
      (catValue p.2 Category.link ≠ 0 ∨ catValue p.2 Category.button ≠ 0 ∨
        catValue p.2 Category.border ≠ 0) ∧
      ¬ isNeutralOrDark p.1) (rankedColors d) with _ | x1 <;>
    rcases h2 : findP (fun p : Hex × ScoreEntry =>
        differsFromFound (primaryFind (rankedColors d)) p.1 ∧
        (catValue p.2 Category.link ≠ 0 ∨ catValue p.2 Category.button ≠ 0))
        (rankedColors d) with _ | x2 <;>
      simp [h1, h2]

/-- C3 (amended): the reported accent is the first ranked entry whose
color differs from the colors found by the primary and secondary
predicate searches (before their positional fallbacks) and is not
neutral-or-dark; if no such entry exists, the third ranked entry; else
`null`. -/
theorem C3_accent_amended (d : ColorData) :
    (classifyColors d).accent = accentSpecAmended d := rfl

/-- C5 (amended): the reported backgrounds are the colors of the first
three qualifying candidates (area strictly above `50000`, descending
area order), deduplicated only afterwards — so fewer than three distinct
colors can be reported even when more qualify; the single background is
the first of these, or `#ffffff` when none qualify. -/
theorem C5_backgrounds_amended (d : ColorData) :
    (classifyColors d).backgrounds = backgroundsSpecAmended d ∧
      (classifyColors d).background =
        (backgroundsSpecAmended d).head?.getD ⟨255, 255, 255⟩ := by
  constructor
  · rfl
  · rw [classifyColors_background]
    show (bgColorList d).head?.getD _ = (dedupFirst (bgColorList d)).head?.getD _
    rw [dedupFirst_head]

/-- C9: on the input whose only candidate is the single link color
`(100,80,80)` — saturation `0.2`, so a valid brand color that is
neutral-or-dark with link score `16` — no ranked entry passes any of the
three primary predicates, the primary falls back to the top-ranked
entry, and the relaxed secondary search (whose exclusion compares
against the empty primary find, not the fallback) selects that same
entry: secondary equals primary. -/
theorem C9_secondary_equals_primary :
    primaryFind (rankedColors dLinkOnly) = none ∧
      (classifyColors dLinkOnly).primary = some ⟨100, 80, 80⟩ ∧
      (classifyColors dLinkOnly).secondary = some ⟨100, 80, 80⟩ := by
  refine ⟨?_, ?_, ?_⟩ <;>
  norm_num [classifyColors, rankedColors, aggregateScores, scoreButtons, scoreLinks,
    scoreBackgrounds, scoreBorders, scoreSvgs, scoreAccents, countColors, bumpCount,
    addScore, setCat, filterP, sortDesc, insertDesc, findP, primaryFind, secondaryFind,
    accentFind, catTruthy, catValue, lookupCat, differsFromFound, isValidBrandColor,
    isNeutralOrDark, getColorVibrancy, satQ, lumQ, dLinkOnly, bgColorList, textColorList,
    dedupFirst, dedupSeen, Nat.max_def, Nat.min_def, min_def] <;>
  simp +decide

/-- C1 (counterexample): on two valid but neutral mid-gray background
colors, neither secondary search can succeed (no link, button or border
subtotal exists at all), so the claimed procedure yields `null`, while
the code falls back to the second ranked entry and reports the second
gray. -/
theorem C1_counterexample :
    (classifyColors dTwoGrays).secondary = some ⟨100, 100, 100⟩ ∧
      secondarySpecClaimed dTwoGrays = none ∧
      (classifyColors dTwoGrays).secondary ≠ secondarySpecClaimed dTwoGrays := by
  have h1 : (classifyColors dTwoGrays).secondary = some ⟨100, 100, 100⟩ := by
    norm_num [classifyColors, rankedColors, aggregateScores, scoreButtons, scoreLinks,
      scoreBackgrounds, scoreBorders, scoreSvgs, scoreAccents, countColors, bumpCount,
      addScore, setCat, filterP, sortDesc, insertDesc, findP, primaryFind, secondaryFind,
      accentFind, catTruthy, catValue, lookupCat, differsFromFound, isValidBrandColor,
      isNeutralOrDark, getColorVibrancy, satQ, lumQ, dTwoGrays, bgColorList, textColorList,
      dedupFirst, dedupSeen, Nat.max_def, Nat.min_def, min_def] <;>
    simp +decide
  have h2 : secondarySpecClaimed dTwoGrays = none := by
    norm_num [secondarySpecClaimed, classifyColors, rankedColors, aggregateScores,
      scoreButtons, scoreLinks, scoreBackgrounds, scoreBorders, scoreSvgs, scoreAccents,
      countColors, bumpCount, addScore, setCat, filterP, sortDesc, insertDesc, findP,
      primaryFind, secondaryFind, accentFind, catTruthy, catValue, lookupCat,
      differsFromFound, isValidBrandColor, isNeutralOrDark, getColorVibrancy, satQ, lumQ,
      dTwoGrays, bgColorList, textColorList, dedupFirst, dedupSeen, Nat.max_def,
      Nat.min_def, min_def] <;>
    simp +decide
  exact ⟨h1, h2, by rw [h1, h2]; simp⟩

/-- C3 (counterexample): on three valid but neutral mid-gray background
colors, every ranked entry is neutral-or-dark, so the claimed procedure
yields `null`, while the code falls back to the third ranked entry and
reports the third gray. -/
theorem C3_counterexample :
    (classifyColors dThreeGrays).accent = some ⟨80, 80, 80⟩ ∧
      accentSpecClaimed dThreeGrays = none ∧
      (classifyColors dThreeGrays).accent ≠ accentSpecClaimed dThreeGrays := by
  have h1 : (classifyColors dThreeGrays).accent = some ⟨80, 80, 80⟩ := by
    norm_num [classifyColors, rankedColors, aggregateScores, scoreButtons, scoreLinks,
      scoreBackgrounds, scoreBorders, scoreSvgs, scoreAccents, countColors, bumpCount,
      addScore, setCat, filterP, sortDesc, insertDesc, findP, primaryFind, secondaryFind,
      accentFind, catTruthy, catValue, lookupCat, differsFromFound, isValidBrandColor,
      isNeutralOrDark, getColorVibrancy, satQ, lumQ, dThreeGrays, bgColorList,
      textColorList, dedupFirst, dedupSeen, Nat.max_def, Nat.min_def, min_def] <;>
    simp +decide
  have h2 : accentSpecClaimed dThreeGrays = none := by
    norm_num [accentSpecClaimed, classifyColors, rankedColors, aggregateScores,
      scoreButtons, scoreLinks, scoreBackgrounds, scoreBorders, scoreSvgs, scoreAccents,
      countColors, bumpCount, addScore, setCat, filterP, sortDesc, insertDesc, findP,
      primaryFind, secondaryFind, accentFind, catTruthy, catValue, lookupCat,
      differsFromFound, isValidBrandColor, isNeutralOrDark, getColorVibrancy, satQ, lumQ,
      dThreeGrays, bgColorList, textColorList, dedupFirst, dedupSeen, Nat.max_def,
      Nat.min_def, min_def] <;>
    simp +decide
  exact ⟨h1, h2, by rw [h1, h2]; simp⟩

/-- C5 (counterexample): with qualifying background candidates of areas
`100000, 90000, 80000, 70000` whose two largest share one color, three
distinct colors qualify, but the code keeps only the first three
candidates before deduplicating and reports two colors, while the
claimed top-3-distinct procedure reports three. -/
theorem C5_counterexample :
    (classifyColors dFourBgs).backgrounds = [⟨1, 2, 3⟩, ⟨4, 5, 6⟩] ∧
      backgroundsSpecClaimed dFourBgs = [⟨1, 2, 3⟩, ⟨4, 5, 6⟩, ⟨7, 8, 9⟩] ∧
      (classifyColors dFourBgs).backgrounds ≠ backgroundsSpecClaimed dFourBgs := by
  have h1 : (classifyColors dFourBgs).backgrounds = [⟨1, 2, 3⟩, ⟨4, 5, 6⟩] := by
    rw [classifyColors_backgrounds]
    norm_num [bgColorList, filterP, sortDesc, insertDesc, dedupFirst, dedupSeen,
      dFourBgs] <;>
    simp +decide
  have h2 : backgroundsSpecClaimed dFourBgs = [⟨1, 2, 3⟩, ⟨4, 5, 6⟩, ⟨7, 8, 9⟩] := by
    norm_num [backgroundsSpecClaimed, filterP, sortDesc, insertDesc, dedupFirst,
      dedupSeen, dFourBgs] <;>
    simp +decide
  exact ⟨h1, h2, by rw [h1, h2]; simp⟩

/-- C4: `total == sum(categoryTotals.values())` holds for every entry
after each individual `addScore` addition (it is preserved by every
single score addition), and consequently for every entry of the final
aggregated score map of any input candidate list. -/
theorem C4_score_additivity :
    (∀ (m : ScoreMap) (color : Hex) (s : ℚ) (cat : Category),
        TotalsAdditive m → TotalsAdditive (addScore m color s cat)) ∧
      ∀ d : ColorData, TotalsAdditive (aggregateScores d) :=
  ⟨fun _ color s cat hm => addScore_additive hm color s cat,
    aggregateScores_additive⟩

/-- C4 witness: the invariant instantiated at one concrete addition and
at the concrete one-link input. -/
theorem C4_witness :
    TotalsAdditive (addScore [] ⟨0, 87, 183⟩ 5 Category.button) ∧
      TotalsAdditive (aggregateScores dLinkOnly) :=
  ⟨C4_score_additivity.1 [] ⟨0, 87, 183⟩ 5 Category.button (by simp [TotalsAdditive]),
    C4_score_additivity.2 dLinkOnly⟩

/-- C10: every per-category contribution of the aggregator is strictly
positive (button at least `50` for nonnegative areas, link at least
`10`, background at least `15`, border only for vibrancy above `0.3`,
svg at least `50`, accent at least `60`); hence every entry of the score
map has a strictly positive total and strictly positive subtotals, every
palette entry has a nonempty usage list, and the usage keys of a ranked
entry are exactly the categories with nonzero subtotal. -/
theorem C10_positive_scores (d : ColorData) (harea : ∀ b ∈ d.buttons, 0 ≤ b.area) :
    (∀ b ∈ d.buttons,
        50 ≤ (if b.isVisible then (100 : ℚ) else 50) + min (b.area / 1000) 50 +
          getColorVibrancy b.color * 100) ∧
      (∀ q ∈ countColors d.links, 10 ≤ q.2 * 10 + getColorVibrancy q.1 * 30) ∧
      (∀ bg ∈ d.backgrounds, 15 ≤ (if bg.isHero then (30 : ℚ) else 15)) ∧
      (∀ q ∈ countColors d.borders,
        getColorVibrancy q.1 > 0.3 → 0 < q.2 * 15 + getColorVibrancy q.1 * 40) ∧
      (∀ s ∈ d.svgColors,
        50 ≤ (if s.inHeader then (150 : ℚ) else 50) + getColorVibrancy s.color * 80) ∧
      (∀ a ∈ d.accentElements, 60 ≤ 60 + getColorVibrancy a.color * 60) ∧
      EntriesPositive (aggregateScores d) ∧
      (classifyColors d).palette =
        ((rankedColors d).take 8).map
          (fun p => ⟨p.1, p.2.total, p.2.categories.map Prod.fst⟩) ∧
      (∀ pe ∈ (classifyColors d).palette, pe.usage ≠ []) ∧
      (∀ p ∈ rankedColors d, ∀ cat : Category,
        cat ∈ p.2.categories.map Prod.fst ↔ catValue p.2 cat ≠ 0) := by
  have hpos : EntriesPositive (aggregateScores d) := aggregateScores_positive d harea
  refine ⟨fun b hb => buttonScoreBound b (harea b hb),
    fun q hq => linkScoreBound q.1 (countColors_one_le d.links q hq),
    fun bg _ => backgroundScoreBound bg,
    fun q hq hv => borderScoreBound q.1 (countColors_one_le d.borders q hq) hv,
    fun s _ => svgScoreBound s,
    fun a _ => accentScoreBound a,
    hpos, classifyColors_palette d, ?_, ?_⟩
  · intro pe hpe
    rw [classifyColors_palette] at hpe
    obtain ⟨p, hp, rfl⟩ := List.mem_map.mp hpe
    have hp' : p ∈ rankedColors d := List.take_subset 8 _ hp
    have := (hpos p (rankedColors_subset hp')).2.2
    simpa using this
  · intro p hp cat
    exact catValue_ne_iff (hpos p (rankedColors_subset hp)).2.1 cat

/-- C10 witness: the aggregated map of the concrete one-link input
satisfies the positivity invariant. -/
theorem C10_witness : EntriesPositive (aggregateScores dLinkOnly) :=
  (C10_positive_scores dLinkOnly (by simp [dLinkOnly])).2.2.2.2.2.2.1

theorem insertDesc_sorted (key : α → ℚ) (x : α) :
    ∀ {l : List α}, List.Sorted (fun a b => key b ≤ key a) l →
      List.Sorted (fun a b => key b ≤ key a) (insertDesc key x l)
  | [], _ => List.sorted_singleton x
  | y :: ys, h => by
    rw [insertDesc]
    rcases List.sorted_cons.mp h with ⟨hy, hys⟩
    split
    · next hyx =>
      refine List.sorted_cons.mpr ⟨fun z hz => ?_, h⟩
      rcases List.mem_cons.mp hz with rfl | hz
      · exact hyx
      · exact le_trans (hy z hz) hyx
    · next hyx =>
      refine List.sorted_cons.mpr ⟨fun z hz => ?_, insertDesc_sorted key x hys⟩
      rcases mem_insertDesc.mp hz with rfl | hz
      · exact le_of_lt (lt_of_not_le hyx)
      · exact hy z hz

theorem sortDesc_sorted (key : α → ℚ) :
    ∀ l : List α, List.Sorted (fun a b => key b ≤ key a) (sortDesc key l)
  | [] => List.sorted_nil
  | x :: xs => insertDesc_sorted key x (sortDesc_sorted key xs)

theorem insertDesc_perm (key : α → ℚ) (x : α) :
    ∀ l : List α, (insertDesc key x l).Perm (x :: l)
  | [] => List.Perm.refl _
  | y :: ys => by
    rw [insertDesc]
    split
    · exact List.Perm.refl _
    · exact ((insertDesc_perm key x ys).cons y).trans (List.Perm.swap x y ys)

theorem sortDesc_perm (key : α → ℚ) : ∀ l : List α, (sortDesc key l).Perm l
  | [] => List.Perm.refl _
  | x :: xs => (insertDesc_perm key x (sortDesc key xs)).trans ((sortDesc_perm key xs).cons x)

theorem extractLogoResult_url (cands : List LogoCandidate) :
    (extractLogoResult cands).url =
      match (rankLogoCandidates cands).head? with
      | none => none
      | some b => if b.cand.src = "" then none else some b.cand.src := rfl

theorem extractLogoResult_format (cands : List LogoCandidate) :
    (extractLogoResult cands).format =
      match (rankLogoCandidates cands).head? with
      | none => none
      | some b => some b.cand.format := rfl

theorem extractLogoResult_alternatives (cands : List LogoCandidate) :
    (extractLogoResult cands).alternatives =
      (((rankLogoCandidates cands).drop 1).take 3).map
        (fun s => ⟨s.cand.src, s.cand.format⟩) := rfl

/-- C7: each logo candidate scores format bonus (svg 50, png 30,
otherwise 0) plus 30 when `500 < width*height < 50000`, plus 40 when in
the header, plus 30 when it has a logo keyword; the ranked list is a
stable descending-score ordering of the scored candidates; the winner
fields are read from the top-ranked candidate (`null` when the list is
empty), and the alternatives are the second through fourth ranked
candidates reduced to source and format. -/
theorem C7_logo_ranking :
    (∀ l : LogoCandidate, logoScore l = logoScoreSpec l) ∧
      (∀ cands : List LogoCandidate,
        List.Sorted (fun a b : ScoredLogo => b.score ≤ a.score) (rankLogoCandidates cands) ∧
          (rankLogoCandidates cands).Perm (cands.map (fun l => ⟨l, logoScore l⟩))) ∧
      (∀ cands : List LogoCandidate, (∀ c ∈ cands, c.src ≠ "") →
        (extractLogoResult cands).url =
          (rankLogoCandidates cands).head?.map (fun s => s.cand.src)) ∧
      (∀ cands : List LogoCandidate,
        (extractLogoResult cands).format =
          (rankLogoCandidates cands).head?.map (fun s => s.cand.format)) ∧
      (∀ cands : List LogoCandidate,
        (extractLogoResult cands).alternatives =
          (((rankLogoCandidates cands).drop 1).take 3).map
            (fun s => ⟨s.cand.src, s.cand.format⟩)) ∧
      (extractLogoResult []).url = none ∧
      (extractLogoResult []).alternatives = [] := by
  refine ⟨?_, ?_, ?_, ?_, fun cands => extractLogoResult_alternatives cands, rfl, rfl⟩
  · intro l
    cases hf : l.format <;>
      simp +decide only [logoScore, logoScoreSpec, hf] <;>
        split_ifs <;> norm_num
  · intro cands
    exact ⟨sortDesc_sorted (fun s : ScoredLogo => s.score) _,
      sortDesc_perm (fun s : ScoredLogo => s.score) _⟩
  · intro cands hsrc
    rw [extractLogoResult_url]
    rcases h : rankLogoCandidates cands with _ | ⟨b, rest⟩
    · rfl
    · have hb : b ∈ rankLogoCandidates cands := by
        rw [h]; exact List.mem_cons_self _ _
      have hb' : b ∈ cands.map (fun l => (⟨l, logoScore l⟩ : ScoredLogo)) :=
        mem_sortDesc.mp hb
      obtain ⟨l, hl, rfl⟩ := List.mem_map.mp hb'
      simp [hsrc l hl]
  · intro cands
    rw [extractLogoResult_format]
    rcases h : rankLogoCandidates cands with _ | ⟨b, rest⟩ <;> rfl

/-- C7 witness: the winner URL of a concrete two-candidate list is the
source of the top-ranked candidate. -/
theorem C7_witness :
    (extractLogoResult [logoA, logoB]).url =
      (rankLogoCandidates [logoA, logoB]).head?.map (fun s => s.cand.src) :=
  C7_logo_ranking.2.2.1 [logoA, logoB] (by simp [logoA, logoB])
